import Mathlib

/-!
Build cache and client build pipeline of go-react-ssr.

Shallow embedding of `pkg/react_renderer/cache_build.go` and
`react_renderer/build_client.go`.

Go strings are modelled by `String`, Go maps keyed by strings by functions
`String → Option _` (absent key = `none`), package-level variables by an explicit
state record that every operation takes and returns.  The read/write lock only
serialises accesses; each operation below is one critical section executed
sequentially, so the lock itself carries no state.
-/

namespace ReactRenderer

/-! ## cache_build.go -/

/-- The Go struct `CachedBuild`. -/
structure CachedBuild where
  CompiledJS : String
  CompiledCSS : String
deriving DecidableEq, Repr

/-- Go zero value of `CachedBuild`, returned by a map read of an absent key. -/
def CachedBuild.zero : CachedBuild := { CompiledJS := "", CompiledCSS := "" }

/-- Package-level state of the cache: the map `cachedBuilds`, the lines sent to the
debug logger, and the arguments with which the dependency resolver
`getParentFilePathFromDependency` has been called so far. -/
structure Globals where
  cachedBuilds : String → Option CachedBuild
  debugLog : List String
  resolverCalls : List String

/-- The Go function `checkForCachedBuild`: `cachedBuild, ok := cachedBuilds[filePath]`. -/
def checkForCachedBuild (g : Globals) (filePath : String) : CachedBuild × Bool :=
  match g.cachedBuilds filePath with
  | some cachedBuild => (cachedBuild, true)
  | none => (CachedBuild.zero, false)

/-- The Go function `cacheBuild`: one debug line, then `cachedBuilds[filePath] = cachedBuild`. -/
def cacheBuild (g : Globals) (filePath : String) (cachedBuild : CachedBuild) : Globals :=
  { g with
    debugLog := g.debugLog ++ ["Caching build for " ++ filePath]
    cachedBuilds := fun k => if k = filePath then some cachedBuild else g.cachedBuilds k }

/-- The Go function `deleteFromCache`: `_, ok := cachedBuilds[filePath]`, delete when `ok`. -/
def deleteFromCache (g : Globals) (filePath : String) : Bool × Globals :=
  let ok := (g.cachedBuilds filePath).isSome
  if ok then
    (ok, { g with cachedBuilds := fun k => if k = filePath then none else g.cachedBuilds k })
  else
    (ok, g)

/-- The Go function `UpdateCacheOnFileChange`.  The helpers `getFullFilePath` and
`getParentFilePathFromDependency` are defined outside `cache_build.go` and are parameters;
each call of the latter is recorded in `resolverCalls`. -/
def UpdateCacheOnFileChange (getFullFilePath getParentFilePathFromDependency : String → String)
    (g : Globals) (filePath : String) : String × Globals :=
  let filePath1 := getFullFilePath filePath
  let r1 := deleteFromCache g filePath1
  if !r1.1 then
    let filePath2 := getParentFilePathFromDependency filePath1
    let g2 := { r1.2 with resolverCalls := r1.2.resolverCalls ++ [filePath1] }
    let r2 := deleteFromCache g2 filePath2
    (filePath2, r2.2)
  else
    (filePath1, r1.2)

/-! ## Go standard library functions used by build_client.go -/

/-- Go `strings.HasSuffix`. -/
def HasSuffix (s suffix : String) : Bool :=
  suffix.data.isSuffixOf s.data

/-- Go `strings.Contains`: `substr` occurs at some position of `s`. -/
def Contains (s substr : String) : Bool :=
  s.data.tails.any (fun t => substr.data.isPrefixOf t)

/-- Loop of Go `filepath.Ext` on the reversed path: walk from the last character towards
the first, stop at a separator with the empty result, and at a dot return the dot with
everything after it (`path[i:]`); `seen` holds the characters already walked over. -/
def extLoop : List Char → List Char → List Char
  | [], _ => []
  | c :: rest, seen =>
    if c = '/' then [] else if c = '.' then c :: seen else extLoop rest (c :: seen)

/-- Go `filepath.Ext` (slash-separated paths): the suffix beginning at the final dot in the
final element of `path`, empty if there is no dot. -/
def Ext (path : String) : String :=
  ⟨extLoop path.data.reverse []⟩

/-- Go `filepath.Base` (slash-separated paths): the last element of `path`, trailing
slashes removed; `.` for the empty path and `/` for a path of slashes only. -/
def Base (path : String) : String :=
  if path = "" then "."
  else
    let stripped := path.data.reverse.dropWhile (fun c => c = '/')
    let last := (stripped.takeWhile (fun c => c ≠ '/')).reverse
    if last = [] then "/" else ⟨last⟩

/-! ## esbuild API types used by build_client.go -/

/-- The constants of esbuild `api.Loader`. -/
inductive Loader where
  | LoaderNone | LoaderBase64 | LoaderBinary | LoaderCopy | LoaderCSS | LoaderDataURL
  | LoaderDefault | LoaderEmpty | LoaderFile | LoaderGlobalCSS | LoaderJS | LoaderJSON
  | LoaderJSX | LoaderLocalCSS | LoaderText | LoaderTS | LoaderTSX
deriving DecidableEq, Repr

/-- The struct esbuild `api.Location`. -/
structure Location where
  File : String
  Namespace : String
  Line : Int
  Column : Int
  Length : Int
  LineText : String
  Suggestion : String
deriving DecidableEq, Repr

/-- The struct esbuild `api.Message`.  Its field `Location` has the pointer type `*Location`
and is nil for a diagnostic that has no source position; nil is `none`. -/
structure Message where
  ID : String
  PluginName : String
  Text : String
  Location : Option Location
deriving DecidableEq, Repr

/-- The struct esbuild `api.OutputFile`. -/
structure OutputFile where
  Path : String
  Contents : String
deriving DecidableEq, Repr

/-- The fields of esbuild `api.BuildResult` read by the program. -/
structure BuildResult where
  Errors : List Message
  Warnings : List Message
  OutputFiles : List OutputFile
  Metafile : String
deriving DecidableEq, Repr

/-- The struct esbuild `api.StdinOptions`, with the fields the program sets. -/
structure StdinOptions where
  Contents : String
  Loader : Loader
  ResolveDir : String
deriving DecidableEq, Repr

/-- The struct esbuild `api.BuildOptions`, with the fields the program sets. -/
structure BuildOptions where
  Stdin : StdinOptions
  Bundle : Bool
  MinifyWhitespace : Bool
  MinifyIdentifiers : Bool
  MinifySyntax : Bool
  Metafile : Bool
  Outdir : String
  AssetNames : String
  Loader : List (String × Loader)
deriving DecidableEq, Repr

/-! ## build_client.go -/

/-- Everything `buildClientJS` reads from outside its arguments: the package variable
`tempCssFilePath`, the configuration fields `config.C.LayoutFile` and `config.C.FrontendDir`,
the environment variable `APP_ENV`, the helper `utils.GetFullFilePath`, and the JSON library
call `jsonparser.ObjectEach`, given as the list of (key, raw value) entries it visits, in
order, in the object found under a key path of the document. -/
structure Env where
  tempCssFilePath : String
  LayoutFile : String
  FrontendDir : String
  APP_ENV : String
  GetFullFilePath : String → String
  ObjectEach : String → List String → List (String × String)

/-- The Go struct `ClientBuild`, as used by `buildClientJS` and `makeClientBuild`. -/
structure ClientBuild where
  JS : String
  Dependencies : List String
deriving DecidableEq, Repr

/-- The Go struct `ClientBuildResult`; a nil `Error` is `none`, otherwise the error text. -/
structure ClientBuildResult where
  JS : String
  Dependencies : List String
  Error : Option String
deriving DecidableEq, Repr

/-- The Go function `injectProps`: `fmt.Sprintf("window.props = %s; %s", props, compiledJS)`. -/
def injectProps (compiledJS props : String) : String :=
  "window.props = " ++ props ++ "; " ++ compiledJS

/-- The Go function `getLoaderType`: three suffix tests in sequence, each overwriting
the loader chosen so far. -/
def getLoaderType (reactFilePath : String) : Loader :=
  let loader := Loader.LoaderTSX
  let loader := if HasSuffix reactFilePath ".ts" then Loader.LoaderTS else loader
  let loader := if HasSuffix reactFilePath ".js" then Loader.LoaderJS else loader
  let loader := if HasSuffix reactFilePath ".jsx" then Loader.LoaderJSX else loader
  loader

/-- The Go function `getDependencyPathsFromMetafile`: the callback given to
`jsonparser.ObjectEach` for the key path `inputs` appends the full path of every key that
does not contain `/node_modules/`. -/
def getDependencyPathsFromMetafile (env : Env) (metafile : String) : List String :=
  (env.ObjectEach metafile ["inputs"]).foldl
    (fun dependencyPaths entry =>
      if !Contains entry.1 "/node_modules/" then
        dependencyPaths ++ [env.GetFullFilePath entry.1]
      else dependencyPaths)
    []

/-- The options `buildClientJS` passes to `esbuildApi.Build`. -/
def buildOptions (env : Env) (reactFilePath : String) : BuildOptions :=
  let globalCssImport :=
    if env.tempCssFilePath ≠ "" then "import \"" ++ env.tempCssFilePath ++ "\";" else ""
  let layoutImport :=
    if env.LayoutFile ≠ "" then "import Layout from \"" ++ env.LayoutFile ++ "\";" else ""
  { Stdin :=
      { Contents :=
          "import * as React from \"react\";\n\t\t\timport \x7b hydrateRoot \x7d from \"react-dom/client\";\n\t\t\t"
            ++ globalCssImport ++ "\n\t\t\t" ++ layoutImport
            ++ "\n\t\t\timport App from \"./" ++ Base reactFilePath
            ++ "\";\n\t\t\tif (typeof Layout === \"undefined\") \x7b\n\t\t\t\thydrateRoot(document.getElementById(\"root\"), <App \x7b...props\x7d />);\n\t\t\t\x7d\n\t\t\thydrateRoot(document.getElementById(\"root\"), <Layout><App \x7b...props\x7d /></Layout>);"
        Loader := getLoaderType reactFilePath
        ResolveDir := env.FrontendDir }
    Bundle := true
    MinifyWhitespace := decide (env.APP_ENV = "production")
    MinifyIdentifiers := decide (env.APP_ENV = "production")
    MinifySyntax := decide (env.APP_ENV = "production")
    Metafile := true
    Outdir := "/"
    AssetNames := "assets/[name]"
    Loader :=
      [(".png", Loader.LoaderFile), (".svg", Loader.LoaderFile), (".jpg", Loader.LoaderFile),
       (".jpeg", Loader.LoaderFile), (".gif", Loader.LoaderFile), (".bmp", Loader.LoaderFile)] }

/-- The Go run-time panic raised by reading a field through a nil pointer. -/
def nilDereference : String :=
  "runtime error: invalid memory address or nil pointer dereference"

/-- The Go function `buildClientJS`; `esbuild` is the call `esbuildApi.Build`.  The result is
`.error` when the function panics and otherwise the returned pair `(ClientBuild, error)`. -/
def buildClientJS (env : Env) (esbuild : BuildOptions → BuildResult) (reactFilePath : String) :
    Except String (ClientBuild × Option String) :=
  let buildResult := esbuild (buildOptions env reactFilePath)
  match buildResult.Errors with
  | first :: _ =>
    match first.Location with
    | none => .error nilDereference
    | some location =>
      .ok ({ JS := "", Dependencies := [] },
        some (first.Text ++ " <br>in " ++ location.File ++ " <br>at " ++ location.LineText))
  | [] =>
    let js :=
      match buildResult.OutputFiles.find? (fun file => HasSuffix file.Path "stdin.js") with
      | some file => file.Contents
      | none => ""
    .ok ({ JS := js, Dependencies := getDependencyPathsFromMetafile env buildResult.Metafile },
      none)

/-- State seen by `makeClientBuild`: the state `cache` behind the two cache helpers, and the
paths `bundled` for which `buildClientJS` has been called, oldest first. -/
structure BuildState (σ : Type) where
  cache : σ
  bundled : List String

/-- The Go function `makeClientBuild`; the value sent on the channel `clientBuildResult` is
the returned result.  The cache helpers `getCachedClientBuild` and `setCachedClientBuild` are
defined outside `build_client.go` and are parameters; `esbuild k` is the behaviour of
`esbuildApi.Build` when `k` builds have been run before. -/
def makeClientBuild {σ : Type} (getCachedClientBuild : σ → String → ClientBuild × Bool)
    (setCachedClientBuild : σ → String → ClientBuild → σ) (env : Env)
    (esbuild : Nat → BuildOptions → BuildResult) (st : BuildState σ)
    (reactFilePath props : String) : Except String (BuildState σ × ClientBuildResult) :=
  let cached := getCachedClientBuild st.cache reactFilePath
  if !cached.2 then
    match buildClientJS env (esbuild st.bundled.length) reactFilePath with
    | .error p => .error p
    | .ok (_, some err) =>
      .ok ({ st with bundled := st.bundled ++ [reactFilePath] },
        { JS := "", Dependencies := [], Error := some err })
    | .ok (clientBuild, none) =>
      .ok ({ cache := setCachedClientBuild st.cache reactFilePath clientBuild
             bundled := st.bundled ++ [reactFilePath] },
        { JS := injectProps clientBuild.JS props
          Dependencies := clientBuild.Dependencies
          Error := none })
  else
    .ok (st,
      { JS := injectProps cached.1.JS props
        Dependencies := cached.1.Dependencies
        Error := none })

/-- Modelled from the spec: the cache helper `getCachedClientBuild`, absent from the sources.
The cache maps a path to a compiled artifact, script body and style only; the dependency
list is not retained in the entry, so a hit carries an empty one. -/
def getCachedClientBuild (g : Globals) (filePath : String) : ClientBuild × Bool :=
  let r := checkForCachedBuild g filePath
  ({ JS := r.1.CompiledJS, Dependencies := [] }, r.2)

/-- Modelled from the spec: the cache helper `setCachedClientBuild`, absent from the sources.
It inserts the props-free compiled script as the entry of the path, replacing any entry. -/
def setCachedClientBuild (g : Globals) (filePath : String) (clientBuild : ClientBuild) :
    Globals :=
  cacheBuild g filePath { CompiledJS := clientBuild.JS, CompiledCSS := "" }

/-! ### Sample data -/

/-- A sample artifact. -/
def sampleBuild : CachedBuild := { CompiledJS := "console.log(1)", CompiledCSS := "" }

/-- A cache holding one entry, under `/proj/App.tsx`. -/
def sampleGlobals : Globals :=
  { cachedBuilds := fun k => if k = "/proj/App.tsx" then some sampleBuild else none
    debugLog := []
    resolverCalls := [] }

/-- A stand-in for path normalisation: absolute paths are kept, others are put under `/proj/`. -/
def sampleFullFilePath (p : String) : String :=
  if p.data.head? = some '/' then p else "/proj/" ++ p

/-- A stand-in dependency resolver: every dependency belongs to `/proj/App.tsx`. -/
def sampleParent (_ : String) : String := "/proj/App.tsx"

/-- A cache holding one entry under the relative path `App.tsx`, as `cacheBuild` leaves it
when it is called with that path. -/
def relativeKeyGlobals : Globals :=
  { cachedBuilds := fun k => if k = "App.tsx" then some sampleBuild else none
    debugLog := []
    resolverCalls := [] }

/-- A cache without entries. -/
def emptyGlobals : Globals :=
  { cachedBuilds := fun _ => none, debugLog := [], resolverCalls := [] }

/-- A manifest listing two local files and one file of a `node_modules` directory that lies
in the working directory; esbuild names inputs relative to the working directory. -/
def sampleMetafile : String :=
  "\x7b\"inputs\":\x7b\"src/App.tsx\":\x7b\x7d,\"src/Button.tsx\":\x7b\x7d,\"node_modules/react/index.js\":\x7b\x7d\x7d,\"outputs\":\x7b\x7d\x7d"

/-- The entries of the `inputs` object of `sampleMetafile`, in document order. -/
def sampleInputs : List (String × String) :=
  [("src/App.tsx", "\x7b\x7d"), ("src/Button.tsx", "\x7b\x7d"),
   ("node_modules/react/index.js", "\x7b\x7d")]

/-- A sample environment: no stylesheet, no layout, development mode, and a JSON reader that
knows the document `sampleMetafile`. -/
def sampleEnv : Env :=
  { tempCssFilePath := ""
    LayoutFile := ""
    FrontendDir := "/proj/src"
    APP_ENV := ""
    GetFullFilePath := sampleFullFilePath
    ObjectEach := fun document keys =>
      if document = sampleMetafile ∧ keys = ["inputs"] then sampleInputs else [] }

/-- A compiler that succeeds on every input with one output file for the entry module. -/
def sampleEsbuild (_ : Nat) (_ : BuildOptions) : BuildResult :=
  { Errors := []
    Warnings := []
    OutputFiles := [{ Path := "/stdin.js", Contents := "hydrateRoot(App)" }]
    Metafile := sampleMetafile }

/-- A compiler that reports one syntax error, with its source position, on every input. -/
def failingEsbuild (_ : Nat) (_ : BuildOptions) : BuildResult :=
  { Errors :=
      [{ ID := "", PluginName := "", Text := "Unexpected \"\x7d\""
         Location := some
           { File := "src/App.tsx", Namespace := "file", Line := 3, Column := 0, Length := 1
             LineText := "\x7d", Suggestion := "" } }]
    Warnings := []
    OutputFiles := []
    Metafile := "" }

/-- A compiler result whose only diagnostic has no source position, as esbuild reports when
two emitted assets get the same output path. -/
def unlocatedFailure : BuildResult :=
  { Errors :=
      [{ ID := "", PluginName := ""
         Text := "Two output files share the same path but have different contents: assets/logo.png"
         Location := none }]
    Warnings := []
    OutputFiles := []
    Metafile := "" }

/-- Spec wording of the exclusion test of dependency extraction: the input is located in the
library directory, that is, one of the directories on its path is named `node_modules`. -/
def inLibraryDirectory (key : String) : Bool :=
  decide ("node_modules".data ∈ (key.data.splitOn '/').dropLast)

/-! ## Lemmas on the cache -/

theorem checkForCachedBuild_snd (g : Globals) (p : String) :
    (checkForCachedBuild g p).2 = (g.cachedBuilds p).isSome := by
  unfold checkForCachedBuild
  cases g.cachedBuilds p <;> rfl

theorem deleteFromCache_fst (g : Globals) (p : String) :
    (deleteFromCache g p).1 = (g.cachedBuilds p).isSome := by
  unfold deleteFromCache
  cases g.cachedBuilds p <;> rfl

theorem deleteFromCache_self (g : Globals) (p : String) :
    (deleteFromCache g p).2.cachedBuilds p = none := by
  unfold deleteFromCache
  cases h : g.cachedBuilds p <;> simp [h]

theorem deleteFromCache_other (g : Globals) (p q : String) (hq : q ≠ p) :
    (deleteFromCache g p).2.cachedBuilds q = g.cachedBuilds q := by
  unfold deleteFromCache
  cases h : g.cachedBuilds p <;> simp [hq]

theorem deleteFromCache_absent (g : Globals) (p : String) (h : g.cachedBuilds p = none) :
    (deleteFromCache g p).2 = g := by
  unfold deleteFromCache
  simp [h]

theorem deleteFromCache_resolverCalls (g : Globals) (p : String) :
    (deleteFromCache g p).2.resolverCalls = g.resolverCalls := by
  unfold deleteFromCache
  cases h : g.cachedBuilds p <;> simp

/-! ## Claims on the cache -/

/-- C6: after `cacheBuild g P A`, `checkForCachedBuild` at `P` returns `(A, true)` whatever
`P` held before, and at every other key it returns what it returned before. -/
theorem lookup_after_insert (g : Globals) (P : String) (A : CachedBuild) :
    checkForCachedBuild (cacheBuild g P A) P = (A, true) ∧
    ∀ Q, Q ≠ P → checkForCachedBuild (cacheBuild g P A) Q = checkForCachedBuild g Q := by
  refine ⟨by simp [checkForCachedBuild, cacheBuild], ?_⟩
  intro Q hQ
  simp [checkForCachedBuild, cacheBuild, hQ]

theorem lookup_after_insert_witness :
    checkForCachedBuild (cacheBuild sampleGlobals "/proj/App.tsx" CachedBuild.zero)
        "/proj/App.tsx" = (CachedBuild.zero, true) ∧
    checkForCachedBuild (cacheBuild sampleGlobals "/proj/Home.tsx" sampleBuild)
        "/proj/App.tsx" = checkForCachedBuild sampleGlobals "/proj/App.tsx" :=
  ⟨(lookup_after_insert sampleGlobals "/proj/App.tsx" CachedBuild.zero).1,
   (lookup_after_insert sampleGlobals "/proj/Home.tsx" sampleBuild).2 "/proj/App.tsx"
     (by decide)⟩

/-- C7: `deleteFromCache g P` returns `true` exactly when `P` had an entry in `g`, and in
both cases `checkForCachedBuild` at `P` afterwards returns the zero artifact and `false`. -/
theorem lookup_after_invalidate (g : Globals) (P : String) :
    ((deleteFromCache g P).1 = true ↔ ∃ A, g.cachedBuilds P = some A) ∧
    checkForCachedBuild (deleteFromCache g P).2 P = (CachedBuild.zero, false) := by
  constructor
  · rw [deleteFromCache_fst, Option.isSome_iff_exists]
  · simp [checkForCachedBuild, deleteFromCache_self]

/-- C4, as amended: when the normal form `N = getFullFilePath P` of `P` is a cached key,
`UpdateCacheOnFileChange` returns `N`, leaves no entry for `N`, leaves every other key as it
was, and does not call the dependency resolver. -/
theorem invalidateOnChange_normal_form_cached (norm parent : String → String) (g : Globals)
    (P : String) (hkey : (g.cachedBuilds (norm P)).isSome = true) :
    (UpdateCacheOnFileChange norm parent g P).1 = norm P ∧
    (UpdateCacheOnFileChange norm parent g P).2.cachedBuilds (norm P) = none ∧
    (∀ Q, Q ≠ norm P →
      (UpdateCacheOnFileChange norm parent g P).2.cachedBuilds Q = g.cachedBuilds Q) ∧
    (UpdateCacheOnFileChange norm parent g P).2.resolverCalls = g.resolverCalls := by
  have h1 : (deleteFromCache g (norm P)).1 = true := by rw [deleteFromCache_fst]; exact hkey
  have hU : UpdateCacheOnFileChange norm parent g P
      = (norm P, (deleteFromCache g (norm P)).2) := by
    simp [UpdateCacheOnFileChange, h1]
  rw [hU]
  exact ⟨rfl, deleteFromCache_self g (norm P),
    fun Q hQ => deleteFromCache_other g (norm P) Q hQ,
    deleteFromCache_resolverCalls g (norm P)⟩

theorem invalidateOnChange_normal_form_cached_witness :
    (sampleGlobals.cachedBuilds (sampleFullFilePath "App.tsx")).isSome = true ∧
    (UpdateCacheOnFileChange sampleFullFilePath sampleParent sampleGlobals "App.tsx").1
      = sampleFullFilePath "App.tsx" ∧
    (UpdateCacheOnFileChange sampleFullFilePath sampleParent sampleGlobals
      "App.tsx").2.cachedBuilds (sampleFullFilePath "App.tsx") = none ∧
    (UpdateCacheOnFileChange sampleFullFilePath sampleParent sampleGlobals
      "App.tsx").2.resolverCalls = sampleGlobals.resolverCalls :=
  ⟨by decide,
   (invalidateOnChange_normal_form_cached sampleFullFilePath sampleParent sampleGlobals
      "App.tsx" (by decide)).1,
   (invalidateOnChange_normal_form_cached sampleFullFilePath sampleParent sampleGlobals
      "App.tsx" (by decide)).2.1,
   (invalidateOnChange_normal_form_cached sampleFullFilePath sampleParent sampleGlobals
      "App.tsx" (by decide)).2.2.2⟩

/-- C4, as stated, fails: with the single cached key `App.tsx`, which is not in normal form,
the call on `App.tsx` returns `/proj/App.tsx` and not `App.tsx`, the entry of `App.tsx` is
still there afterwards, and the dependency resolver has been called once. -/
theorem invalidateOnChange_cached_key_not_normal :
    (relativeKeyGlobals.cachedBuilds "App.tsx").isSome = true ∧
    (UpdateCacheOnFileChange sampleFullFilePath sampleParent relativeKeyGlobals "App.tsx").1
      = "/proj/App.tsx" ∧
    (UpdateCacheOnFileChange sampleFullFilePath sampleParent relativeKeyGlobals "App.tsx").1
      ≠ "App.tsx" ∧
    (UpdateCacheOnFileChange sampleFullFilePath sampleParent relativeKeyGlobals
      "App.tsx").2.cachedBuilds "App.tsx" = some sampleBuild ∧
    (UpdateCacheOnFileChange sampleFullFilePath sampleParent relativeKeyGlobals
      "App.tsx").2.resolverCalls = ["/proj/App.tsx"] ∧
    relativeKeyGlobals.resolverCalls = [] := by
  decide

/-- C5: when the normal form `N` of `P` is not a cached key, `UpdateCacheOnFileChange`
returns the path `E` the dependency resolver gives for `N`; if `E` is cached its entry is
removed and every other key keeps its entry, and if `E` is not cached the map is unchanged. -/
theorem invalidateOnChange_uncached (norm parent : String → String) (g : Globals) (P : String)
    (hmiss : g.cachedBuilds (norm P) = none) :
    (UpdateCacheOnFileChange norm parent g P).1 = parent (norm P) ∧
    (UpdateCacheOnFileChange norm parent g P).2.resolverCalls
      = g.resolverCalls ++ [norm P] ∧
    ((g.cachedBuilds (parent (norm P))).isSome = true →
      (UpdateCacheOnFileChange norm parent g P).2.cachedBuilds (parent (norm P)) = none ∧
      ∀ Q, Q ≠ parent (norm P) →
        (UpdateCacheOnFileChange norm parent g P).2.cachedBuilds Q = g.cachedBuilds Q) ∧
    (g.cachedBuilds (parent (norm P)) = none →
      (UpdateCacheOnFileChange norm parent g P).2.cachedBuilds = g.cachedBuilds) := by
  have h1 : (deleteFromCache g (norm P)).1 = false := by
    rw [deleteFromCache_fst, hmiss]; rfl
  have h2 : (deleteFromCache g (norm P)).2 = g := deleteFromCache_absent g _ hmiss
  have hU : UpdateCacheOnFileChange norm parent g P =
      (parent (norm P),
        (deleteFromCache { g with resolverCalls := g.resolverCalls ++ [norm P] }
          (parent (norm P))).2) := by
    simp [UpdateCacheOnFileChange, h1, h2]
  rw [hU]
  refine ⟨rfl, ?_, ?_, ?_⟩
  · rw [deleteFromCache_resolverCalls]
  · intro _
    exact ⟨deleteFromCache_self _ _, fun Q hQ => deleteFromCache_other _ _ Q hQ⟩
  · intro hE
    have h3 := deleteFromCache_absent
      { g with resolverCalls := g.resolverCalls ++ [norm P] } (parent (norm P)) hE
    simp [h3]

theorem invalidateOnChange_uncached_witness :
    sampleGlobals.cachedBuilds (sampleFullFilePath "Button.tsx") = none ∧
    (UpdateCacheOnFileChange sampleFullFilePath sampleParent sampleGlobals "Button.tsx").1
      = "/proj/App.tsx" ∧
    (UpdateCacheOnFileChange sampleFullFilePath sampleParent sampleGlobals
      "Button.tsx").2.cachedBuilds "/proj/App.tsx" = none :=
  ⟨by decide,
   (invalidateOnChange_uncached sampleFullFilePath sampleParent sampleGlobals "Button.tsx"
      (by decide)).1,
   ((invalidateOnChange_uncached sampleFullFilePath sampleParent sampleGlobals "Button.tsx"
      (by decide)).2.2.1 (by decide)).1⟩

/-! ## Lemmas on the standard library functions -/

theorem extLoop_length (r seen : List Char) :
    extLoop r seen = [] ∨ seen.length + 1 ≤ (extLoop r seen).length := by
  induction r generalizing seen with
  | nil => left; rfl
  | cons c rest ih =>
    unfold extLoop
    split_ifs with h1 h2
    · left; rfl
    · right; simp
    · rcases ih (c :: seen) with h | h
      · left; exact h
      · right; simp at h; omega

theorem extLoop_two (a b : Char) (ha : a ≠ '/' ∧ a ≠ '.') (hb : b ≠ '/' ∧ b ≠ '.')
    (r : List Char) :
    ([b, a, '.'].isPrefixOf r = true ↔ extLoop r [] = ['.', a, b]) := by
  rcases r with _ | ⟨c1, _ | ⟨c2, _ | ⟨c3, r3⟩⟩⟩
  · simp [extLoop]
  · simp [extLoop, List.isPrefixOf]; split_ifs <;> simp
  · simp [extLoop, List.isPrefixOf]; split_ifs <;> simp
  · have hl := extLoop_length r3 [c3, c2, c1]
    constructor
    · intro h
      simp [List.isPrefixOf] at h
      obtain ⟨h1, h2, h3⟩ := h
      subst h1 h2 h3
      simp [extLoop, ha.1, ha.2, hb.1, hb.2]
    · intro h
      simp only [extLoop] at h
      split_ifs at h
      all_goals first
        | (simp at h; done)
        | (simp at h
           obtain ⟨h1, h2, h3⟩ := h
           subst h1 h2 h3
           simp [List.isPrefixOf])
        | (rcases hl with hl | hl
           · rw [hl] at h; simp at h
           · rw [h] at hl; simp at hl)

theorem extLoop_three (a b c : Char) (ha : a ≠ '/' ∧ a ≠ '.') (hb : b ≠ '/' ∧ b ≠ '.')
    (hc : c ≠ '/' ∧ c ≠ '.') (r : List Char) :
    ([c, b, a, '.'].isPrefixOf r = true ↔ extLoop r [] = ['.', a, b, c]) := by
  rcases r with _ | ⟨c1, _ | ⟨c2, _ | ⟨c3, _ | ⟨c4, r4⟩⟩⟩⟩
  · simp [extLoop]
  · simp [extLoop, List.isPrefixOf]; split_ifs <;> simp
  · simp [extLoop, List.isPrefixOf]; split_ifs <;> simp
  · simp [extLoop, List.isPrefixOf]; split_ifs <;> simp
  · have hl := extLoop_length r4 [c4, c3, c2, c1]
    constructor
    · intro h
      simp [List.isPrefixOf] at h
      obtain ⟨h1, h2, h3, h4⟩ := h
      subst h1 h2 h3 h4
      simp [extLoop, ha.1, ha.2, hb.1, hb.2, hc.1, hc.2]
    · intro h
      simp only [extLoop] at h
      split_ifs at h
      all_goals first
        | (simp at h; done)
        | (simp at h
           obtain ⟨h1, h2, h3, h4⟩ := h
           subst h1 h2 h3 h4
           simp [List.isPrefixOf])
        | (rcases hl with hl | hl
           · rw [hl] at h; simp at h
           · rw [h] at hl; simp at hl)

theorem hasSuffix_ts (p : String) : HasSuffix p ".ts" = true ↔ Ext p = ".ts" := by
  have h := extLoop_two 't' 's' (by decide) (by decide) p.data.reverse
  have e : HasSuffix p ".ts" = ['s', 't', '.'].isPrefixOf p.data.reverse := rfl
  rw [e, h, Ext, String.ext_iff]

theorem hasSuffix_js (p : String) : HasSuffix p ".js" = true ↔ Ext p = ".js" := by
  have h := extLoop_two 'j' 's' (by decide) (by decide) p.data.reverse
  have e : HasSuffix p ".js" = ['s', 'j', '.'].isPrefixOf p.data.reverse := rfl
  rw [e, h, Ext, String.ext_iff]

theorem hasSuffix_jsx (p : String) : HasSuffix p ".jsx" = true ↔ Ext p = ".jsx" := by
  have h := extLoop_three 'j' 's' 'x' (by decide) (by decide) (by decide) p.data.reverse
  have e : HasSuffix p ".jsx" = ['x', 's', 'j', '.'].isPrefixOf p.data.reverse := rfl
  rw [e, h, Ext, String.ext_iff]

theorem contains_iff_occurs (s substr : String) :
    Contains s substr = true ↔ substr.data <:+: s.data := by
  unfold Contains
  rw [List.any_eq_true, List.infix_iff_prefix_suffix]
  constructor
  · rintro ⟨t, ht, hp⟩
    exact ⟨t, List.isPrefixOf_iff_prefix.mp hp, (List.mem_tails _ _).mp ht⟩
  · rintro ⟨t, hp, ht⟩
    exact ⟨t, (List.mem_tails _ _).mpr ht, List.isPrefixOf_iff_prefix.mpr hp⟩

/-! ## Claims on the loader -/

/-- C9: the loader chosen by `getLoaderType` is a function of the extension `Ext p` of the
path: TS for `.ts`, JS for `.js`, JSX for `.jsx`, TSX for every other extension; it is always
one of these four; and each suffix test of `getLoaderType` holds exactly when the extension
of the last path element is the tested one. -/
theorem loader_by_extension (p : String) :
    (HasSuffix p ".ts" = true ↔ Ext p = ".ts") ∧
    (HasSuffix p ".js" = true ↔ Ext p = ".js") ∧
    (HasSuffix p ".jsx" = true ↔ Ext p = ".jsx") ∧
    getLoaderType p =
      (if Ext p = ".ts" then Loader.LoaderTS
       else if Ext p = ".js" then Loader.LoaderJS
       else if Ext p = ".jsx" then Loader.LoaderJSX
       else Loader.LoaderTSX) ∧
    (getLoaderType p = Loader.LoaderTS ∨ getLoaderType p = Loader.LoaderJS ∨
      getLoaderType p = Loader.LoaderJSX ∨ getLoaderType p = Loader.LoaderTSX) := by
  have hts := hasSuffix_ts p
  have hjs := hasSuffix_js p
  have hjsx := hasSuffix_jsx p
  have hmain : getLoaderType p =
      (if Ext p = ".ts" then Loader.LoaderTS
       else if Ext p = ".js" then Loader.LoaderJS
       else if Ext p = ".jsx" then Loader.LoaderJSX
       else Loader.LoaderTSX) := by
    unfold getLoaderType
    by_cases h1 : Ext p = ".ts"
    · have a2 : HasSuffix p ".js" = false := by
        rw [Bool.eq_false_iff]; intro h; rw [hjs.mp h] at h1; exact absurd h1 (by decide)
      have a3 : HasSuffix p ".jsx" = false := by
        rw [Bool.eq_false_iff]; intro h; rw [hjsx.mp h] at h1; exact absurd h1 (by decide)
      simp [h1, hts.mpr h1, a2, a3]
    · have a1 : HasSuffix p ".ts" = false := by
        rw [Bool.eq_false_iff]; intro h; exact h1 (hts.mp h)
      by_cases h2 : Ext p = ".js"
      · have a3 : HasSuffix p ".jsx" = false := by
          rw [Bool.eq_false_iff]; intro h; rw [hjsx.mp h] at h2; exact absurd h2 (by decide)
        simp [h1, h2, a1, hjs.mpr h2, a3]
      · have a2 : HasSuffix p ".js" = false := by
          rw [Bool.eq_false_iff]; intro h; exact h2 (hjs.mp h)
        by_cases h3 : Ext p = ".jsx"
        · simp [h1, h2, h3, a1, a2, hjsx.mpr h3]
        · have a3 : HasSuffix p ".jsx" = false := by
            rw [Bool.eq_false_iff]; intro h; exact h3 (hjsx.mp h)
          simp [h1, h2, h3, a1, a2, a3]
  refine ⟨hts, hjs, hjsx, hmain, ?_⟩
  rw [hmain]
  split_ifs <;> simp

theorem getLoaderType_samples :
    getLoaderType "/proj/App.tsx" = Loader.LoaderTSX ∧
    getLoaderType "/proj/App" = Loader.LoaderTSX ∧
    getLoaderType "/proj/util.d.ts" = Loader.LoaderTS ∧
    getLoaderType "/proj/main.js" = Loader.LoaderJS ∧
    getLoaderType "/proj/Home.jsx" = Loader.LoaderJSX := by
  decide

/-! ## Lemmas on the build pipeline -/

theorem buildClientJS_success (env : Env) (esbuild : BuildOptions → BuildResult) (P : String)
    (hok : (esbuild (buildOptions env P)).Errors = []) :
    ∃ b, buildClientJS env esbuild P = .ok (b, none) := by
  unfold buildClientJS
  simp only [hok]
  exact ⟨_, rfl⟩

/-- What `buildClientJS` returns when the first diagnostic carries a source position: the
empty build and the error text made of that diagnostic alone. -/
theorem buildClientJS_located_error (env : Env) (esbuild : BuildOptions → BuildResult)
    (P : String) (first : Message) (others : List Message) (location : Location)
    (herr : (esbuild (buildOptions env P)).Errors = first :: others)
    (hloc : first.Location = some location) :
    buildClientJS env esbuild P =
      .ok ({ JS := "", Dependencies := [] },
        some (first.Text ++ " <br>in " ++ location.File ++ " <br>at " ++ location.LineText)) := by
  unfold buildClientJS
  simp only [herr, hloc]

/-- What `getDependencyPathsFromMetafile` computes: the full paths, in the order of the
manifest, of the keys of `inputs` that do not contain the text `/node_modules/`. -/
theorem getDependencyPathsFromMetafile_eq_filter (env : Env) (metafile : String) :
    getDependencyPathsFromMetafile env metafile =
      (((env.ObjectEach metafile ["inputs"]).map Prod.fst).filter
        (fun key => !Contains key "/node_modules/")).map env.GetFullFilePath := by
  unfold getDependencyPathsFromMetafile
  suffices h : ∀ (l : List (String × String)) (acc : List String),
      l.foldl (fun dependencyPaths entry =>
        if (!Contains entry.1 "/node_modules/") = true then
          dependencyPaths ++ [env.GetFullFilePath entry.1]
        else dependencyPaths) acc
      = acc ++ ((l.map Prod.fst).filter
          (fun key => !Contains key "/node_modules/")).map env.GetFullFilePath by
    simpa using h (env.ObjectEach metafile ["inputs"]) []
  intro l
  induction l with
  | nil => intro acc; simp
  | cons e rest ih =>
    intro acc
    rw [List.foldl_cons, ih]
    by_cases hc : Contains e.1 "/node_modules/" = true
    · simp [hc]
    · simp [hc]

theorem makeClientBuild_hit {σ : Type} (getCached : σ → String → ClientBuild × Bool)
    (setCached : σ → String → ClientBuild → σ) (env : Env)
    (esbuild : Nat → BuildOptions → BuildResult) (st : BuildState σ) (P props : String)
    (h : (getCached st.cache P).2 = true) :
    makeClientBuild getCached setCached env esbuild st P props
      = .ok (st, { JS := injectProps (getCached st.cache P).1.JS props
                   Dependencies := (getCached st.cache P).1.Dependencies
                   Error := none }) := by
  simp [makeClientBuild, h]

theorem makeClientBuild_miss_ok {σ : Type} (getCached : σ → String → ClientBuild × Bool)
    (setCached : σ → String → ClientBuild → σ) (env : Env)
    (esbuild : Nat → BuildOptions → BuildResult) (st : BuildState σ) (P props : String)
    (b : ClientBuild) (h : (getCached st.cache P).2 = false)
    (hb : buildClientJS env (esbuild st.bundled.length) P = .ok (b, none)) :
    makeClientBuild getCached setCached env esbuild st P props
      = .ok ({ cache := setCached st.cache P b, bundled := st.bundled ++ [P] },
          { JS := injectProps b.JS props, Dependencies := b.Dependencies, Error := none }) := by
  simp [makeClientBuild, h, hb]

theorem makeClientBuild_miss_err {σ : Type} (getCached : σ → String → ClientBuild × Bool)
    (setCached : σ → String → ClientBuild → σ) (env : Env)
    (esbuild : Nat → BuildOptions → BuildResult) (st : BuildState σ) (P props : String)
    (b : ClientBuild) (e : String) (h : (getCached st.cache P).2 = false)
    (hb : buildClientJS env (esbuild st.bundled.length) P = .ok (b, some e)) :
    makeClientBuild getCached setCached env esbuild st P props
      = .ok ({ cache := st.cache, bundled := st.bundled ++ [P] },
          { JS := "", Dependencies := [], Error := some e }) := by
  simp [makeClientBuild, h, hb]

theorem makeClientBuild_miss_panic {σ : Type} (getCached : σ → String → ClientBuild × Bool)
    (setCached : σ → String → ClientBuild → σ) (env : Env)
    (esbuild : Nat → BuildOptions → BuildResult) (st : BuildState σ) (P props : String)
    (m : String) (h : (getCached st.cache P).2 = false)
    (hb : buildClientJS env (esbuild st.bundled.length) P = .error m) :
    makeClientBuild getCached setCached env esbuild st P props = .error m := by
  simp [makeClientBuild, h, hb]

/-! ## Claims on the build pipeline -/

/-- C1: with the cache helpers as the spec describes them and a compiler that reports no
error for `P`, two consecutive calls `makeClientBuild P props1`, `makeClientBuild P props2`
from any state both deliver a result; `buildClientJS` is run at most once for `P` over the
two calls; the second result has no error and its script is `window.props = props2; `
followed by the compiled body that follows `window.props = props1; ` in the first result.
That body is the cached script when `P` was cached before the first call (then
`buildClientJS` is not run at all), and otherwise the script returned by the one run of
`buildClientJS`, made by the first call. -/
theorem props_injection_decoupled (env : Env) (esbuild : Nat → BuildOptions → BuildResult)
    (st : BuildState Globals) (P props1 props2 : String)
    (hok : ∀ k, (esbuild k (buildOptions env P)).Errors = []) :
    ∃ st1 r1 st2 r2 body,
      makeClientBuild getCachedClientBuild setCachedClientBuild env esbuild st P props1
        = .ok (st1, r1) ∧
      makeClientBuild getCachedClientBuild setCachedClientBuild env esbuild st1 P props2
        = .ok (st2, r2) ∧
      st2.bundled.count P ≤ st.bundled.count P + 1 ∧
      st2.bundled.length ≤ st.bundled.length + 1 ∧
      r1.Error = none ∧
      r2.Error = none ∧
      r1.JS = "window.props = " ++ props1 ++ "; " ++ body ∧
      r2.JS = "window.props = " ++ props2 ++ "; " ++ body ∧
      (∀ cb, st.cache.cachedBuilds P = some cb →
        body = cb.CompiledJS ∧ st1.bundled = st.bundled ∧ st2.bundled = st.bundled) ∧
      (st.cache.cachedBuilds P = none →
        ∃ b, buildClientJS env (esbuild st.bundled.length) P = .ok (b, none) ∧
          body = b.JS ∧ st1.bundled = st.bundled ++ [P] ∧ st2.bundled = st1.bundled ∧
          st1.cache.cachedBuilds P = some { CompiledJS := b.JS, CompiledCSS := "" }) := by
  cases hc : st.cache.cachedBuilds P with
  | some cb =>
    have hget : getCachedClientBuild st.cache P
        = ({ JS := cb.CompiledJS, Dependencies := [] }, true) := by
      simp [getCachedClientBuild, checkForCachedBuild, hc]
    have hhit : (getCachedClientBuild st.cache P).2 = true := by rw [hget]
    refine ⟨st, _, st, _, cb.CompiledJS,
      makeClientBuild_hit getCachedClientBuild setCachedClientBuild env esbuild st P props1 hhit,
      makeClientBuild_hit getCachedClientBuild setCachedClientBuild env esbuild st P props2 hhit,
      ?_, ?_, rfl, rfl, ?_, ?_, ?_, ?_⟩
    · omega
    · omega
    · rw [hget]; rfl
    · rw [hget]; rfl
    · intro cb2 h2
      simp only [Option.some.injEq] at h2
      exact ⟨by rw [h2], rfl, rfl⟩
    · intro h2
      simp at h2
  | none =>
    have hget : (getCachedClientBuild st.cache P).2 = false := by
      simp [getCachedClientBuild, checkForCachedBuild, hc]
    obtain ⟨b, hb⟩ := buildClientJS_success env (esbuild st.bundled.length) P (hok _)
    have hget2 : getCachedClientBuild (setCachedClientBuild st.cache P b) P
        = ({ JS := b.JS, Dependencies := [] }, true) := by
      simp [getCachedClientBuild, setCachedClientBuild, checkForCachedBuild, cacheBuild]
    have hhit : (getCachedClientBuild (setCachedClientBuild st.cache P b) P).2 = true := by
      rw [hget2]
    refine ⟨_, _, _, _, b.JS,
      makeClientBuild_miss_ok getCachedClientBuild setCachedClientBuild env esbuild st P props1
        b hget hb,
      makeClientBuild_hit getCachedClientBuild setCachedClientBuild env esbuild
        { cache := setCachedClientBuild st.cache P b, bundled := st.bundled ++ [P] } P props2
        hhit,
      ?_, ?_, rfl, rfl, rfl, ?_, ?_, ?_⟩
    · simp
    · simp
    · show injectProps (getCachedClientBuild (setCachedClientBuild st.cache P b) P).1.JS props2
        = _
      rw [hget2]; rfl
    · intro cb2 h2
      simp at h2
    · intro _
      refine ⟨b, hb, rfl, rfl, rfl, ?_⟩
      simp [setCachedClientBuild, cacheBuild]

theorem props_injection_decoupled_witness :
    (∃ st1 r1 st2 r2 body,
      makeClientBuild getCachedClientBuild setCachedClientBuild sampleEnv sampleEsbuild
        { cache := emptyGlobals, bundled := [] } "/proj/App.tsx" "\x7b\"name\":\"Ann\"\x7d"
        = .ok (st1, r1) ∧
      makeClientBuild getCachedClientBuild setCachedClientBuild sampleEnv sampleEsbuild
        st1 "/proj/App.tsx" "\x7b\"name\":\"Bob\"\x7d" = .ok (st2, r2) ∧
      st2.bundled.count "/proj/App.tsx" ≤ ([] : List String).count "/proj/App.tsx" + 1 ∧
      st2.bundled.length ≤ ([] : List String).length + 1 ∧
      r1.Error = none ∧
      r2.Error = none ∧
      r1.JS = "window.props = " ++ "\x7b\"name\":\"Ann\"\x7d" ++ "; " ++ body ∧
      r2.JS = "window.props = " ++ "\x7b\"name\":\"Bob\"\x7d" ++ "; " ++ body ∧
      (∀ cb, emptyGlobals.cachedBuilds "/proj/App.tsx" = some cb →
        body = cb.CompiledJS ∧ st1.bundled = [] ∧ st2.bundled = []) ∧
      (emptyGlobals.cachedBuilds "/proj/App.tsx" = none →
        ∃ b, buildClientJS sampleEnv (sampleEsbuild ([] : List String).length) "/proj/App.tsx"
            = .ok (b, none) ∧
          body = b.JS ∧ st1.bundled = [] ++ ["/proj/App.tsx"] ∧ st2.bundled = st1.bundled ∧
          st1.cache.cachedBuilds "/proj/App.tsx"
            = some { CompiledJS := b.JS, CompiledCSS := "" })) ∧
    buildClientJS sampleEnv (sampleEsbuild 0) "/proj/App.tsx"
      = .ok ({ JS := "hydrateRoot(App)"
               Dependencies := ["/proj/src/App.tsx", "/proj/src/Button.tsx",
                 "/proj/node_modules/react/index.js"] }, none) :=
  ⟨props_injection_decoupled sampleEnv sampleEsbuild { cache := emptyGlobals, bundled := [] }
    "/proj/App.tsx" "\x7b\"name\":\"Ann\"\x7d" "\x7b\"name\":\"Bob\"\x7d" (fun _ => rfl), rfl⟩

/-- C2: whatever the two cache helpers are, when the lookup of `P` misses and `buildClientJS`
returns an error for `P`, `makeClientBuild` delivers a result carrying that error and
nothing else, and the state behind the cache helpers is the one before the call: no insert
was made, `P` still misses, and every lookup returns what it returned before. -/
theorem failed_build_not_cached {σ : Type} (getCached : σ → String → ClientBuild × Bool)
    (setCached : σ → String → ClientBuild → σ) (env : Env)
    (esbuild : Nat → BuildOptions → BuildResult) (st : BuildState σ) (P props : String)
    (b : ClientBuild) (e : String)
    (hmiss : (getCached st.cache P).2 = false)
    (herr : buildClientJS env (esbuild st.bundled.length) P = .ok (b, some e)) :
    ∃ st1,
      makeClientBuild getCached setCached env esbuild st P props
        = .ok (st1, { JS := "", Dependencies := [], Error := some e }) ∧
      st1.cache = st.cache ∧
      (getCached st1.cache P).2 = false ∧
      ∀ Q, getCached st1.cache Q = getCached st.cache Q := by
  exact ⟨{ cache := st.cache, bundled := st.bundled ++ [P] },
    makeClientBuild_miss_err getCached setCached env esbuild st P props b e hmiss herr,
    rfl, hmiss, fun _ => rfl⟩

theorem failed_build_not_cached_witness :
    ∃ st1,
      makeClientBuild getCachedClientBuild setCachedClientBuild sampleEnv failingEsbuild
        { cache := sampleGlobals, bundled := [] } "/proj/Home.tsx" "null"
        = .ok (st1, { JS := "", Dependencies := []
                      Error := some "Unexpected \"\x7d\" <br>in src/App.tsx <br>at \x7d" }) ∧
      st1.cache = sampleGlobals ∧
      (getCachedClientBuild st1.cache "/proj/Home.tsx").2 = false ∧
      ∀ Q, getCachedClientBuild st1.cache Q = getCachedClientBuild sampleGlobals Q :=
  failed_build_not_cached getCachedClientBuild setCachedClientBuild sampleEnv failingEsbuild
    { cache := sampleGlobals, bundled := [] } "/proj/Home.tsx" "null"
    { JS := "", Dependencies := [] } "Unexpected \"\x7d\" <br>in src/App.tsx <br>at \x7d"
    (by decide) rfl

/-- C8: with the cache helpers as the spec describes them, a call of `makeClientBuild` that
hits the cache delivers an empty dependency list (and leaves the state as it was); so a
delivered result with a non-empty dependency list comes from a call that missed the cache
and ran `buildClientJS`. -/
theorem cache_hit_no_dependencies (env : Env) (esbuild : Nat → BuildOptions → BuildResult)
    (st : BuildState Globals) (P props : String) :
    ((getCachedClientBuild st.cache P).2 = true →
      ∃ r, makeClientBuild getCachedClientBuild setCachedClientBuild env esbuild st P props
          = .ok (st, r) ∧ r.Dependencies = [] ∧ r.Error = none) ∧
    (∀ st1 r, makeClientBuild getCachedClientBuild setCachedClientBuild env esbuild st P props
          = .ok (st1, r) → r.Dependencies ≠ [] →
        (getCachedClientBuild st.cache P).2 = false ∧ st1.bundled = st.bundled ++ [P]) := by
  have hit : (getCachedClientBuild st.cache P).2 = true →
      makeClientBuild getCachedClientBuild setCachedClientBuild env esbuild st P props
        = .ok (st, { JS := injectProps (getCachedClientBuild st.cache P).1.JS props
                     Dependencies := [], Error := none }) := fun h =>
    makeClientBuild_hit getCachedClientBuild setCachedClientBuild env esbuild st P props h
  constructor
  · intro h
    exact ⟨_, hit h, rfl, rfl⟩
  · intro st1 r hrun hdeps
    cases hc : (getCachedClientBuild st.cache P).2 with
    | true =>
      rw [hit hc] at hrun
      simp only [Except.ok.injEq, Prod.mk.injEq] at hrun
      rw [← hrun.2] at hdeps
      exact absurd rfl hdeps
    | false =>
      refine ⟨rfl, ?_⟩
      cases hb : buildClientJS env (esbuild st.bundled.length) P with
      | error m =>
        rw [makeClientBuild_miss_panic _ _ env esbuild st P props m hc hb] at hrun
        simp at hrun
      | ok res =>
        obtain ⟨b, err⟩ := res
        cases err with
        | some m =>
          rw [makeClientBuild_miss_err _ _ env esbuild st P props b m hc hb] at hrun
          simp only [Except.ok.injEq, Prod.mk.injEq] at hrun
          rw [← hrun.1]
        | none =>
          rw [makeClientBuild_miss_ok _ _ env esbuild st P props b hc hb] at hrun
          simp only [Except.ok.injEq, Prod.mk.injEq] at hrun
          rw [← hrun.1]

theorem cache_hit_no_dependencies_witness :
    (∃ r, makeClientBuild getCachedClientBuild setCachedClientBuild sampleEnv sampleEsbuild
        { cache := sampleGlobals, bundled := [] } "/proj/App.tsx" "null"
        = .ok ({ cache := sampleGlobals, bundled := [] }, r) ∧
      r.Dependencies = [] ∧ r.Error = none) ∧
    ((getCachedClientBuild emptyGlobals "/proj/App.tsx").2 = false ∧
      ["/proj/App.tsx"] = ([] : List String) ++ ["/proj/App.tsx"]) :=
  ⟨(cache_hit_no_dependencies sampleEnv sampleEsbuild
      { cache := sampleGlobals, bundled := [] } "/proj/App.tsx" "null").1 (by decide),
   (cache_hit_no_dependencies sampleEnv sampleEsbuild
      { cache := emptyGlobals, bundled := [] } "/proj/App.tsx" "null").2
      { cache := setCachedClientBuild emptyGlobals "/proj/App.tsx"
          { JS := "hydrateRoot(App)"
            Dependencies := ["/proj/src/App.tsx", "/proj/src/Button.tsx",
              "/proj/node_modules/react/index.js"] }
        bundled := ["/proj/App.tsx"] }
      { JS := "window.props = null; hydrateRoot(App)"
        Dependencies := ["/proj/src/App.tsx", "/proj/src/Button.tsx",
          "/proj/node_modules/react/index.js"]
        Error := none }
      rfl (by decide)⟩

/-- C3: on a manifest listing two local files and one file of a `node_modules` directory
that lies in the working directory, `getDependencyPathsFromMetafile` returns three paths: the
library file `node_modules/react/index.js`, which is located in the library directory, does
not contain the text `/node_modules/` and is kept in the dependency list. -/
theorem dependency_extraction_keeps_library_file :
    inLibraryDirectory "node_modules/react/index.js" = true ∧
    Contains "node_modules/react/index.js" "/node_modules/" = false ∧
    getDependencyPathsFromMetafile sampleEnv sampleMetafile =
      ["/proj/src/App.tsx", "/proj/src/Button.tsx", "/proj/node_modules/react/index.js"] := by
  refine ⟨by decide, by decide, by decide⟩

/-- The same manifest with the library directory below another directory: the library file
is left out and the two local files remain. -/
theorem dependency_extraction_nested_library :
    getDependencyPathsFromMetafile
      { sampleEnv with ObjectEach := fun _ _ =>
          [("src/App.tsx", ""), ("src/Button.tsx", ""),
           ("../frontend/node_modules/react/index.js", "")] } sampleMetafile =
      ["/proj/src/App.tsx", "/proj/src/Button.tsx"] := by
  decide

/-- C10: when the first diagnostic of the compiler result has no source position,
`buildClientJS` reads `Location.File` through a nil pointer and panics: it returns neither
an error value nor an empty build, for every environment and path. -/
theorem unlocated_diagnostic_panics (env : Env) (reactFilePath : String) :
    buildClientJS env (fun _ => unlocatedFailure) reactFilePath = .error nilDereference ∧
    unlocatedFailure.Errors.length = 1 := by
  exact ⟨rfl, rfl⟩

/-- The error text built for a diagnostic with a source position contains `<br>in`. -/
theorem located_error_text_contains_marker (text file lineText : String) :
    Contains (text ++ " <br>in " ++ file ++ " <br>at " ++ lineText) "<br>in" = true := by
  rw [contains_iff_occurs]
  refine ⟨text.data ++ [' '], ' ' :: (file.data ++ " <br>at ".data ++ lineText.data), ?_⟩
  simp [String.data_append]

end ReactRenderer
